import Mathlib

/-!
Verification of `stellargraph/data/unsupervised_sampler.py`
(class `UnsupervisedSampler`).

The Python class is shallowly embedded below.  Node identifiers are
natural numbers.  The graph, the uniform random walker and the standard
library pseudo-random source are external collaborators of the file under
analysis; they are embedded as a record of capabilities
(`StellarGraph`), an abstract walk-generator function (`Walker`) and an
abstract pseudo-random interface (`RNGOps`) whose fields carry the
documented contracts of `random.Random.choices` and
`random.Random.shuffle`.  Floating point weights are modelled as real
numbers, with `degree ** 0.75` rendered as the real power `x ^ (0.75 : ℝ)`.
-/

/-- Node identifiers of the graph. -/
abbrev Node := Nat

/-- A (target, context) pair of node identifiers. -/
abbrev Pair := Node × Node

/-- A pair together with its 1/0 label. -/
abbrev LabeledPair := Pair × Nat

/-- A batch: the unzipped form of a chunk of labeled pairs,
mirroring `tuple(zip(*chunk))` in the Python source. -/
abbrev Batch := List Pair × List Nat

/-- Modelled from the spec: the graph collaborator (class `StellarGraph`,
not under `src/`).  The sampler uses only the ordered node list
(`G.nodes()`) and the degree lookup (`G.node_degrees()`). -/
structure StellarGraph where
  nodes : List Node
  node_degrees : Node → Nat

/-- Modelled from the spec: the walk generator collaborator
(`UniformRandomWalk.run`, not under `src/`).  Arguments in order:
root nodes, walk length, number of walks per root, seed. -/
abbrev Walker := List Node → Int → Nat → Nat → List (List Node)

/-- A Python runtime value passed as `batch_size`: the validation code
distinguishes `None`, `int`, and everything else by exact runtime type
(`type(batch_size) != int`), under which `bool` is not `int`. -/
inductive PyVal where
  | none : PyVal
  | int : Int → PyVal
  | bool : Bool → PyVal
  | float : ℚ → PyVal
  | other : PyVal
deriving DecidableEq

/-- The graph argument of the constructor: either a real `StellarGraph`
or a value of some other runtime type. -/
inductive PyGraphArg where
  | stellar : StellarGraph → PyGraphArg
  | other : PyGraphArg

/-- The `nodes` argument of the constructor: absent (`None`), a real
iterable of node ids, or a non-iterable value. -/
inductive PyNodesArg where
  | none : PyNodesArg
  | iterable : List Node → PyNodesArg
  | notIterable : PyNodesArg

/-- Errors raised by `UnsupervisedSampler.__init__`; each constructor
identifies the offending parameter, mirroring the distinct `ValueError`
messages of the source. -/
inductive InitError where
  | graphNotStellar : InitError
  | nodesNotIterable : InitError
  | lengthAtLeastTwo : InitError
  | numberOfWalksAtLeastOne : InitError
deriving DecidableEq

/-- Errors raised by `UnsupervisedSampler.run`; the first four identify
the failed `batch_size` check of `_check_parameter_values`, and
`choicesError` carries the message of an error raised inside
`random.Random.choices` (the negative-draw step). -/
inductive RunError where
  | batchSizeNone : RunError
  | batchSizeNotInt : RunError
  | batchSizeLessThanOne : RunError
  | batchSizeNotEven : RunError
  | choicesError : String → RunError
deriving DecidableEq

/-- Modelled from the spec: the interface of the standard library
pseudo-random source `random.Random` (not part of this repository), used
by the sampler for the negative draws and the shuffle.  `S` is the state
of the generator.  The contract fields record the documented behaviour:
`choices` fails when the total of the weights is not positive, and
otherwise returns exactly `k` draws taken from the population;
`shuffle` permutes its input. -/
structure RNGOps (S : Type) where
  seedInit : Option Int → S
  choices : List Node → List ℝ → Nat → S → Except String (List Node × S)
  shuffleP : List LabeledPair → S → List LabeledPair × S
  choices_zero_total : ∀ pop w k s, w.sum ≤ 0 →
    ∃ msg, choices pop w k s = Except.error msg
  choices_pos_total : ∀ pop w k s, 0 < w.sum → w.length = pop.length →
    ∃ out s2, choices pop w k s = Except.ok (out, s2) ∧ out.length = k ∧
      ∀ x ∈ out, x ∈ pop
  shuffle_perm : ∀ l s, ((shuffleP l s).1).Perm l

/-- The state of an `UnsupervisedSampler` object after a successful
`__init__`: the stored graph, root nodes, walk length, walk count and
the internal random state `random.Random(seed)`. -/
structure UnsupervisedSampler (S : Type) where
  graph : StellarGraph
  nodes : List Node
  length : Int
  number_of_walks : Int
  random : S

/-- Helper of `UnsupervisedSampler.init`: the length and walk-count
checks and the final field assignments of `__init__`. -/
def UnsupervisedSampler.mkChecked {S : Type} (rng : RNGOps S)
    (g : StellarGraph) (ns : List Node) (length number_of_walks : Int)
    (seed : Option Int) : Except InitError (UnsupervisedSampler S) :=
  if length < 2 then Except.error InitError.lengthAtLeastTwo
  else if number_of_walks < 1 then Except.error InitError.numberOfWalksAtLeastOne
  else Except.ok
    { graph := g, nodes := ns, length := length,
      number_of_walks := number_of_walks, random := rng.seedInit seed }

/-- Embedding of `UnsupervisedSampler.__init__`: type check on the graph,
iterability check on `nodes` (defaulting to all graph nodes), then the
length and walk-count checks, then the seeding of the random state. -/
def UnsupervisedSampler.init {S : Type} (rng : RNGOps S) (G : PyGraphArg)
    (nodes : PyNodesArg) (length number_of_walks : Int) (seed : Option Int) :
    Except InitError (UnsupervisedSampler S) :=
  match G with
  | PyGraphArg.other => Except.error InitError.graphNotStellar
  | PyGraphArg.stellar g =>
    match nodes with
    | PyNodesArg.notIterable => Except.error InitError.nodesNotIterable
    | PyNodesArg.none => UnsupervisedSampler.mkChecked rng g g.nodes length number_of_walks seed
    | PyNodesArg.iterable ns => UnsupervisedSampler.mkChecked rng g ns length number_of_walks seed

/-- Embedding of `UnsupervisedSampler._check_parameter_values`:
`None` check, exact-type integer check, positivity check, parity check,
in source order. -/
def UnsupervisedSampler.check_parameter_values (batch_size : PyVal) :
    Except RunError Unit :=
  match batch_size with
  | PyVal.none => Except.error RunError.batchSizeNone
  | PyVal.int n =>
    if n < 1 then Except.error RunError.batchSizeLessThanOne
    else if n % 2 ≠ 0 then Except.error RunError.batchSizeNotEven
    else Except.ok ()
  | _ => Except.error RunError.batchSizeNotInt

/-- The integer carried by a `PyVal`, defaulting to 0; applied only
after validation, where the value is known to be an `int`. -/
def PyVal.intOf : PyVal → Int
  | PyVal.int n => n
  | _ => 0

/-- Embedding of `sampling_distribution = [degrees[n] ** 0.75 for n in all_nodes]`
(line 131 of the source): the node2vec negative-sampling weights,
recomputed from the graph on every call. -/
noncomputable def sampling_distribution (g : StellarGraph) : List ℝ :=
  g.nodes.map (fun n => ((g.node_degrees n : ℝ)) ^ ((0.75 : ℝ)))

/-- Embedding of lines 136-142 of the source: `targets = [walk[0] for walk in walks]`
zipped back against the walks, each target paired with every node of the
tail of its walk.  `headD 0` stands for the Python indexing `walk[0]`;
all claims keep every walk non-empty, so the default is never taken. -/
def positive_pairs_of_walks (walks : List (List Node)) : List Pair :=
  let targets := walks.map (fun w => w.headD 0)
  ((targets.zip walks).map (fun tw => tw.2.tail.map (fun c => (tw.1, c)))).flatten

/-- Second definition for the refinement claim C5, following the words of
the spec: the flat list obtained by pairing the first node of each walk
with every subsequent node of that same walk, in order. -/
def spec_positive_pairs (walks : List (List Node)) : List Pair :=
  (walks.map (fun w => w.tail.map (fun c => (w.headD 0, c)))).flatten

/-- Embedding of `range(start, stop, step)` of Python for a non-negative
step, restricted to the ascending case used by the source.  Argument
order here: stop, step, start, so that the recursion is on the last
argument. -/
def pyRange (stop step start : Nat) : List Nat :=
  if _h : start < stop ∧ 0 < step then start :: pyRange stop step (start + step)
  else []
termination_by stop - start
decreasing_by omega

/-- Embedding of lines 159-162 of the source:
`[tuple(zip(*edge_ids_labels[i : i + batch_size])) for i in range(0, len(edge_ids_labels), batch_size)]`. -/
def toBatches (batch_size : Nat) (l : List LabeledPair) : List Batch :=
  (pyRange l.length batch_size 0).map
    (fun i => ((l.drop i).take batch_size).unzip)

/-- The intermediate values of one `run` call, exposed so that theorems
can speak about the walks, the positive pairs and the negative pairs
produced inside the call. -/
structure RunTrace (S : Type) where
  walks : List (List Node)
  positive_pairs : List Pair
  negative_samples : List Node
  negative_pairs : List Pair
  batches : List Batch
  random : S

/-- Embedding of lines 147-162 of the source, after the negative draws
have been obtained: build the negative pairs from the positive targets,
attach the labels, shuffle and batch. -/
noncomputable def assembleTrace {S : Type} (rng : RNGOps S) (b : Nat)
    (walks : List (List Node)) (positive_pairs : List Pair)
    (negative_samples : List Node) (r1 : S) : RunTrace S :=
  let negative_pairs :=
    (positive_pairs.zip negative_samples).map (fun pn => (pn.1.1, pn.2))
  let labels := List.replicate positive_pairs.length 1 ++
    List.replicate negative_pairs.length 0
  let edge_ids_labels := (positive_pairs ++ negative_pairs).zip labels
  let shuffled := rng.shuffleP edge_ids_labels r1
  { walks := walks, positive_pairs := positive_pairs,
    negative_samples := negative_samples,
    negative_pairs := negative_pairs,
    batches := toBatches b shuffled.1,
    random := shuffled.2 }

/-- Embedding of the body of `UnsupervisedSampler.run` (lines 126-162),
returning the full trace of intermediates.  The walker is invoked as in
line 133 of the source: `self.walker.run(nodes=self.nodes, length=self.length, n=1, seed=0)`. -/
noncomputable def UnsupervisedSampler.runCore {S : Type} (rng : RNGOps S)
    (walkerRun : Walker) (s : UnsupervisedSampler S) (batch_size : PyVal) :
    Except RunError (RunTrace S) :=
  match UnsupervisedSampler.check_parameter_values batch_size with
  | Except.error e => Except.error e
  | Except.ok () =>
    let all_nodes := s.graph.nodes
    let walks := walkerRun s.nodes s.length 1 0
    let positive_pairs := positive_pairs_of_walks walks
    match rng.choices all_nodes (sampling_distribution s.graph)
        positive_pairs.length s.random with
    | Except.error msg => Except.error (RunError.choicesError msg)
    | Except.ok (negative_samples, r1) =>
      Except.ok (assembleTrace rng batch_size.intOf.toNat walks
        positive_pairs negative_samples r1)

/-- Embedding of `UnsupervisedSampler.run`: the externally visible result
(the list of batches) together with the updated object state. -/
noncomputable def UnsupervisedSampler.run {S : Type} (rng : RNGOps S)
    (walkerRun : Walker) (s : UnsupervisedSampler S) (batch_size : PyVal) :
    Except RunError (List Batch × UnsupervisedSampler S) :=
  (UnsupervisedSampler.runCore rng walkerRun s batch_size).map
    (fun t => (t.batches, { s with random := t.random }))

/-- Repeated lock-step invocations of `run`, threading the random state
exactly as the Python object does: a raised error leaves the state
untouched (validation and the draw both fail before consuming it). -/
noncomputable def UnsupervisedSampler.runCalls {S : Type} (rng : RNGOps S)
    (walkerRun : Walker) (s : UnsupervisedSampler S) :
    List PyVal → List (Except RunError (List Batch))
  | [] => []
  | b :: bs =>
    match UnsupervisedSampler.run rng walkerRun s b with
    | Except.error e => Except.error e :: UnsupervisedSampler.runCalls rng walkerRun s bs
    | Except.ok (batches, s2) => Except.ok batches :: UnsupervisedSampler.runCalls rng walkerRun s2 bs

/-- A concrete implementation of the draw used to instantiate `RNGOps`
at concrete inputs: it fails exactly when the total weight is not
positive, and otherwise returns the first population element `k` times. -/
noncomputable def constChoices (pop : List Node) (w : List ℝ) (k : Nat)
    (s : Unit) : Except String (List Node × Unit) :=
  if w.sum ≤ 0 then Except.error "Total of weights must be greater than zero"
  else Except.ok (List.replicate k (pop.headD 0), s)

/-- A concrete `RNGOps` instance over the trivial state, used to
instantiate the theorems below at concrete inputs. -/
noncomputable def theRNG : RNGOps Unit where
  seedInit := fun _ => ()
  choices := constChoices
  shuffleP := fun l s => (l, s)
  choices_zero_total := by
    intro pop w k s h
    exact ⟨"Total of weights must be greater than zero", by simp [constChoices, h]⟩
  choices_pos_total := by
    intro pop w k s h hlen
    have hw : w ≠ [] := by
      intro hnil
      rw [hnil] at h
      simp at h
    have hpop : pop ≠ [] := by
      intro hnil
      rw [hnil] at hlen
      simp at hlen
      exact hw hlen
    refine ⟨List.replicate k (pop.headD 0), s, ?_, by simp, ?_⟩
    · simp [constChoices, not_le.mpr h]
    · intro x hx
      rw [List.eq_of_mem_replicate hx]
      cases pop with
      | nil => exact absurd rfl hpop
      | cons a t => simp
  shuffle_perm := fun l s => List.Perm.refl l

/-- The weight list is positionally parallel to the node list. -/
theorem sampling_distribution_length (g : StellarGraph) :
    (sampling_distribution g).length = g.nodes.length := by
  simp [sampling_distribution]

/-- Every negative-sampling weight is non-negative. -/
theorem sampling_distribution_nonneg (g : StellarGraph) :
    ∀ x ∈ sampling_distribution g, 0 ≤ x := by
  intro x hx
  simp only [sampling_distribution, List.mem_map] at hx
  obtain ⟨n, _, rfl⟩ := hx
  exact Real.rpow_nonneg (Nat.cast_nonneg _) _

/-- If some node of the graph has positive degree, the total weight of
the negative-sampling distribution is positive. -/
theorem sampling_distribution_sum_pos (g : StellarGraph) (n : Node)
    (hn : n ∈ g.nodes) (hd : 0 < g.node_degrees n) :
    0 < (sampling_distribution g).sum := by
  have hmem : ((g.node_degrees n : ℝ)) ^ ((0.75 : ℝ)) ∈ sampling_distribution g :=
    List.mem_map_of_mem _ hn
  have hpos : 0 < ((g.node_degrees n : ℝ)) ^ ((0.75 : ℝ)) :=
    Real.rpow_pos_of_pos (by exact_mod_cast hd) _
  calc (0 : ℝ) < ((g.node_degrees n : ℝ)) ^ ((0.75 : ℝ)) := hpos
    _ ≤ (sampling_distribution g).sum :=
        List.single_le_sum (sampling_distribution_nonneg g) _ hmem

/-- If every node of the graph has degree zero, every weight is zero and
so is the total. -/
theorem sampling_distribution_sum_zero (g : StellarGraph)
    (h : ∀ n ∈ g.nodes, g.node_degrees n = 0) :
    (sampling_distribution g).sum = 0 := by
  apply List.sum_eq_zero
  intro x hx
  simp only [sampling_distribution, List.mem_map] at hx
  obtain ⟨n, hn, rfl⟩ := hx
  rw [h n hn]
  simp only [Nat.cast_zero]
  exact Real.zero_rpow (by norm_num)

/-- `pyRange` when the loop does not enter. -/
theorem pyRange_stop {stop step start : Nat} (h : ¬(start < stop ∧ 0 < step)) :
    pyRange stop step start = [] := by
  rw [pyRange]
  exact dif_neg h

/-- `pyRange` when the loop enters once. -/
theorem pyRange_step {stop step start : Nat} (h1 : start < stop) (h2 : 0 < step) :
    pyRange stop step start = start :: pyRange stop step (start + step) := by
  rw [pyRange]
  exact dif_pos ⟨h1, h2⟩

/-- Shifting the start of a `pyRange` by `d` shifts every element by `d`. -/
theorem pyRange_shift (step d : Nat) :
    ∀ (n stop start : Nat), stop - start ≤ n →
      pyRange stop step (start + d) =
        (pyRange (stop - d) step start).map (fun i => i + d) := by
  intro n
  induction n with
  | zero =>
    intro stop start h
    rw [pyRange_stop (by omega), pyRange_stop (by omega)]
    rfl
  | succ n ih =>
    intro stop start h
    by_cases hc : start < stop - d ∧ 0 < step
    · rw [pyRange_step (by omega) hc.2, pyRange_step hc.1 hc.2, List.map_cons]
      have harg : start + d + step = start + step + d := by omega
      rw [harg, ih stop (start + step) (by omega)]
    · rw [pyRange_stop (by omega), pyRange_stop hc]
      rfl

/-- `toBatches` of the empty list is empty. -/
theorem toBatches_nil (b : Nat) : toBatches b [] = [] := by
  unfold toBatches
  rw [List.length_nil, pyRange_stop (by omega)]
  rfl

/-- Unfolding of `toBatches` on a non-empty list with a positive batch
size: the first chunk, then the batches of the rest. -/
theorem toBatches_cons {b : Nat} (hb : 0 < b) {l : List LabeledPair}
    (hl : l ≠ []) :
    toBatches b l = (l.take b).unzip :: toBatches b (l.drop b) := by
  have hlen : 0 < l.length := List.length_pos.mpr hl
  unfold toBatches
  rw [pyRange_step hlen hb, List.map_cons,
    pyRange_shift b b l.length l.length 0 (by omega), List.map_map]
  simp [Function.comp, List.drop_drop, List.length_drop]
  intro a _
  rw [Nat.add_comm]

/-- The first component of an unzipped list has the length of the list. -/
theorem unzip_fst_length {α β : Type} (l : List (α × β)) :
    (l.unzip).1.length = l.length := by
  induction l with
  | nil => rfl
  | cons x xs ih => simp [List.unzip_cons, ih]

/-- Combined batching facts: the pair counts of the batches of `l` sum
to `l.length`, the batch count is the ceiling of `l.length / b`, every
batch except the last holds exactly `b` pairs, and the last batch holds
between 1 and `b` pairs. -/
theorem toBatches_main (b : Nat) (hb : 0 < b) :
    ∀ (n : Nat) (l : List LabeledPair), l.length ≤ n →
      ((toBatches b l).map (fun x => x.1.length)).sum = l.length ∧
      (toBatches b l).length = (l.length + b - 1) / b ∧
      (∀ x ∈ (toBatches b l).dropLast, x.1.length = b) ∧
      (∀ h : toBatches b l ≠ [], 1 ≤ ((toBatches b l).getLast h).1.length ∧
        ((toBatches b l).getLast h).1.length ≤ b) := by
  intro n
  induction n with
  | zero =>
    intro l hl
    have hnil : l = [] := List.eq_nil_of_length_eq_zero (Nat.le_zero.mp hl)
    subst hnil
    rw [toBatches_nil]
    refine ⟨rfl, ?_, by simp, fun h => absurd rfl h⟩
    have : (0 + b - 1) / b = 0 := Nat.div_eq_of_lt (by omega)
    simpa using this.symm
  | succ n ih =>
    intro l hl
    by_cases hnil : l = []
    · subst hnil
      rw [toBatches_nil]
      refine ⟨rfl, ?_, by simp, fun h => absurd rfl h⟩
      have : (0 + b - 1) / b = 0 := Nat.div_eq_of_lt (by omega)
      simpa using this.symm
    · have hlen : 0 < l.length := List.length_pos.mpr hnil
      rw [toBatches_cons hb hnil]
      have hdl : (l.drop b).length = l.length - b := List.length_drop b l
      obtain ⟨ih1, ih2, ih3, ih4⟩ := ih (l.drop b) (by omega)
      have hhead : ((l.take b).unzip).1.length = min b l.length := by
        rw [unzip_fst_length, List.length_take]
      by_cases hsmall : l.length ≤ b
      · have hdrop : l.drop b = [] := List.drop_eq_nil_of_le hsmall
        rw [hdrop, toBatches_nil]
        refine ⟨?_, ?_, by simp, ?_⟩
        · simp [hhead]
          omega
        · have : (l.length + b - 1) / b = 1 := by
            apply Nat.div_eq_of_lt_le (by omega) (by omega)
          simp [this]
        · intro h
          simp [List.getLast_singleton, hhead]
          omega
      · have hrest : toBatches b (l.drop b) ≠ [] := by
          intro hre
          rw [hre] at ih2
          simp at ih2
          have : b ≤ l.length - b + b - 1 := by omega
          have := Nat.one_le_div_iff hb |>.mpr this
          omega
        refine ⟨?_, ?_, ?_, ?_⟩
        · simp only [List.map_cons, List.sum_cons, ih1, hhead, hdl]
          omega
        · simp only [List.length_cons, ih2, hdl]
          have h1 : l.length - b + b - 1 = l.length - 1 := by omega
          have h2 : l.length + b - 1 = (l.length - 1) + b := by omega
          rw [h1, h2, Nat.add_div_right _ hb]
        · intro x hx
          rw [List.dropLast_cons_of_ne_nil hrest] at hx
          rcases List.mem_cons.mp hx with hx1 | hx2
          · rw [hx1, hhead]
            omega
          · exact ih3 x hx2
        · intro h
          rw [List.getLast_cons hrest]
          exact ih4 hrest

/-- Unfolding of the pair extraction on a cons cell. -/
theorem positive_pairs_of_walks_cons (w : List Node) (ws : List (List Node)) :
    positive_pairs_of_walks (w :: ws) =
      w.tail.map (fun c => (w.headD 0, c)) ++ positive_pairs_of_walks ws := by
  simp [positive_pairs_of_walks]

/-- The number of positive pairs is the sum over the walks of
`walk length - 1`. -/
theorem positive_pairs_of_walks_length (walks : List (List Node)) :
    (positive_pairs_of_walks walks).length =
      (walks.map (fun w => w.length - 1)).sum := by
  induction walks with
  | nil => rfl
  | cons w ws ih =>
    rw [positive_pairs_of_walks_cons, List.length_append, ih]
    simp [List.length_tail]

/-- When every walk has the same length `L`, the number of positive
pairs is `(number of walks) * (L - 1)`. -/
theorem positive_pairs_of_walks_length_const (walks : List (List Node))
    (L : Nat) (h : ∀ w ∈ walks, w.length = L) :
    (positive_pairs_of_walks walks).length = walks.length * (L - 1) := by
  rw [positive_pairs_of_walks_length]
  have hrep : walks.map (fun w => w.length - 1) =
      List.replicate walks.length (L - 1) := by
    apply List.eq_replicate_iff.mpr
    refine ⟨by simp, ?_⟩
    intro x hx
    rcases List.mem_map.mp hx with ⟨w, hw, rfl⟩
    rw [h w hw]
  rw [hrep, List.sum_replicate, smul_eq_mul]

/-- Field values of `assembleTrace`. -/
theorem assembleTrace_fields {S : Type} (rng : RNGOps S) (b : Nat)
    (walks : List (List Node)) (pos : List Pair) (neg : List Node) (r1 : S) :
    (assembleTrace rng b walks pos neg r1).walks = walks ∧
    (assembleTrace rng b walks pos neg r1).positive_pairs = pos ∧
    (assembleTrace rng b walks pos neg r1).negative_samples = neg ∧
    (assembleTrace rng b walks pos neg r1).negative_pairs =
      (pos.zip neg).map (fun pn => (pn.1.1, pn.2)) := by
  refine ⟨rfl, rfl, rfl, rfl⟩

/-- The list handed to the shuffle inside `assembleTrace`. -/
noncomputable def preShuffle (pos : List Pair) (neg : List Node) :
    List LabeledPair :=
  let negative_pairs := (pos.zip neg).map (fun pn => (pn.1.1, pn.2))
  let labels := List.replicate pos.length 1 ++
    List.replicate negative_pairs.length 0
  (pos ++ negative_pairs).zip labels

/-- The batches and final state of `assembleTrace`, via `preShuffle`. -/
theorem assembleTrace_batches {S : Type} (rng : RNGOps S) (b : Nat)
    (walks : List (List Node)) (pos : List Pair) (neg : List Node) (r1 : S) :
    (assembleTrace rng b walks pos neg r1).batches =
      toBatches b (rng.shuffleP (preShuffle pos neg) r1).1 ∧
    (assembleTrace rng b walks pos neg r1).random =
      (rng.shuffleP (preShuffle pos neg) r1).2 := by
  refine ⟨rfl, rfl⟩

/-- When the negative draw returns as many samples as there are positive
pairs, the shuffled list has twice that many elements. -/
theorem preShuffle_length (pos : List Pair) (neg : List Node)
    (h : neg.length = pos.length) :
    (preShuffle pos neg).length = 2 * pos.length := by
  unfold preShuffle
  simp [List.length_zip, List.length_append, List.length_map, h]
  omega

/-- Reduction of `runCore` when validation succeeds and the draw
succeeds. -/
theorem runCore_ok {S : Type} (rng : RNGOps S) (walker : Walker)
    (s : UnsupervisedSampler S) (bs : PyVal)
    (hcheck : UnsupervisedSampler.check_parameter_values bs = Except.ok ())
    (neg : List Node) (r1 : S)
    (hch : rng.choices s.graph.nodes (sampling_distribution s.graph)
      (positive_pairs_of_walks (walker s.nodes s.length 1 0)).length s.random =
      Except.ok (neg, r1)) :
    UnsupervisedSampler.runCore rng walker s bs =
      Except.ok (assembleTrace rng bs.intOf.toNat
        (walker s.nodes s.length 1 0)
        (positive_pairs_of_walks (walker s.nodes s.length 1 0)) neg r1) := by
  simp only [UnsupervisedSampler.runCore, hcheck, hch]

/-- Reduction of `runCore` when validation succeeds and the draw
fails. -/
theorem runCore_choices_error {S : Type} (rng : RNGOps S) (walker : Walker)
    (s : UnsupervisedSampler S) (bs : PyVal)
    (hcheck : UnsupervisedSampler.check_parameter_values bs = Except.ok ())
    (msg : String)
    (hch : rng.choices s.graph.nodes (sampling_distribution s.graph)
      (positive_pairs_of_walks (walker s.nodes s.length 1 0)).length s.random =
      Except.error msg) :
    UnsupervisedSampler.runCore rng walker s bs =
      Except.error (RunError.choicesError msg) := by
  simp only [UnsupervisedSampler.runCore, hcheck, hch]

/-- Reduction of `runCore` when validation fails. -/
theorem runCore_check_error {S : Type} (rng : RNGOps S) (walker : Walker)
    (s : UnsupervisedSampler S) (bs : PyVal) (e : RunError)
    (hcheck : UnsupervisedSampler.check_parameter_values bs = Except.error e) :
    UnsupervisedSampler.runCore rng walker s bs = Except.error e := by
  simp only [UnsupervisedSampler.runCore, hcheck]

/-- An even integer batch size of at least one passes validation. -/
theorem check_ok_of_even {b : Int} (h1 : 1 ≤ b) (h2 : b % 2 = 0) :
    UnsupervisedSampler.check_parameter_values (PyVal.int b) = Except.ok () := by
  simp only [UnsupervisedSampler.check_parameter_values]
  rw [if_neg (by omega), if_neg (by simp [h2])]

/-- C5: for every list of walks, the positive pairs produced by the
sampler are exactly the flat list obtained by pairing the first node of
each walk with every subsequent node of that walk, preserving the order
of the walks and, within each walk, the order of the context nodes.
The transformation is a pure function of the walks (it receives no
random state), so it uses no randomness.  Proved for all walk lists, in
particular those whose walks all have length at least 2. -/
theorem C5_positive_pairs_follow_spec (walks : List (List Node)) :
    positive_pairs_of_walks walks = spec_positive_pairs walks := by
  induction walks with
  | nil => rfl
  | cons w ws ih =>
    rw [positive_pairs_of_walks_cons, ih]
    simp [spec_positive_pairs]

/-- C10: a boolean batch size is rejected with the non-integer type
error, because `type(batch_size) != int` compares exact runtime types
and `bool` is a distinct runtime type from `int`; consequently
`run(True)` fails with that error for every sampler, walker and random
source. -/
theorem C10_bool_batch_size_rejected :
    (∀ b : Bool, UnsupervisedSampler.check_parameter_values (PyVal.bool b) =
      Except.error RunError.batchSizeNotInt) ∧
    (∀ (S : Type) (rng : RNGOps S) (walker : Walker)
      (s : UnsupervisedSampler S),
      UnsupervisedSampler.run rng walker s (PyVal.bool true) =
        Except.error RunError.batchSizeNotInt) := by
  constructor
  · intro b
    rfl
  · intro S rng walker s
    unfold UnsupervisedSampler.run
    rw [runCore_check_error rng walker s (PyVal.bool true)
      RunError.batchSizeNotInt rfl]
    rfl

/-- C4: `run(batch_size)` raises a parameter error identifying the
failed check, with no walk generation or sampling work, exactly when the
batch size is missing, not an integer, less than one, or odd; an even
integer batch size of at least 2 passes validation.  The independence of
the raised error from the graph, walker and random source (quantified
over all of them) expresses that nothing is computed before the raise,
and a validated call can only fail later inside the negative draw. -/
theorem C4_run_validation :
    (UnsupervisedSampler.check_parameter_values PyVal.none =
      Except.error RunError.batchSizeNone) ∧
    (∀ b : Bool, UnsupervisedSampler.check_parameter_values (PyVal.bool b) =
      Except.error RunError.batchSizeNotInt) ∧
    (∀ q : ℚ, UnsupervisedSampler.check_parameter_values (PyVal.float q) =
      Except.error RunError.batchSizeNotInt) ∧
    (UnsupervisedSampler.check_parameter_values PyVal.other =
      Except.error RunError.batchSizeNotInt) ∧
    (∀ n : Int, n < 1 →
      UnsupervisedSampler.check_parameter_values (PyVal.int n) =
        Except.error RunError.batchSizeLessThanOne) ∧
    (∀ n : Int, 1 ≤ n → n % 2 ≠ 0 →
      UnsupervisedSampler.check_parameter_values (PyVal.int n) =
        Except.error RunError.batchSizeNotEven) ∧
    (∀ n : Int, 2 ≤ n → n % 2 = 0 →
      UnsupervisedSampler.check_parameter_values (PyVal.int n) = Except.ok ()) ∧
    (∀ (bs : PyVal) (e : RunError),
      UnsupervisedSampler.check_parameter_values bs = Except.error e →
      ∀ (S : Type) (rng : RNGOps S) (walker : Walker)
        (s : UnsupervisedSampler S),
        UnsupervisedSampler.run rng walker s bs = Except.error e) ∧
    (∀ (bs : PyVal),
      UnsupervisedSampler.check_parameter_values bs = Except.ok () →
      ∀ (S : Type) (rng : RNGOps S) (walker : Walker)
        (s : UnsupervisedSampler S) (e : RunError),
        UnsupervisedSampler.run rng walker s bs = Except.error e →
        ∃ msg, e = RunError.choicesError msg) := by
  refine ⟨rfl, fun b => rfl, fun q => rfl, rfl, ?_, ?_, ?_, ?_, ?_⟩
  · intro n h
    simp only [UnsupervisedSampler.check_parameter_values]
    rw [if_pos h]
  · intro n h1 h2
    simp only [UnsupervisedSampler.check_parameter_values]
    rw [if_neg (by omega), if_pos h2]
  · intro n h1 h2
    exact check_ok_of_even (by omega) h2
  · intro bs e h S rng walker s
    unfold UnsupervisedSampler.run
    rw [runCore_check_error rng walker s bs e h]
    rfl
  · intro bs h S rng walker s e hrun
    unfold UnsupervisedSampler.run at hrun
    cases hch : rng.choices s.graph.nodes (sampling_distribution s.graph)
        (positive_pairs_of_walks (walker s.nodes s.length 1 0)).length
        s.random with
    | error msg =>
      refine ⟨msg, ?_⟩
      rw [runCore_choices_error rng walker s bs h msg hch] at hrun
      simp only [Except.map] at hrun
      exact (Except.error.inj hrun).symm
    | ok pr =>
      obtain ⟨neg, r1⟩ := pr
      rw [runCore_ok rng walker s bs h neg r1 hch] at hrun
      simp only [Except.map] at hrun
      exact absurd hrun (by simp)

/-- C4 witness: the validation outcomes at concrete batch sizes 3 (odd,
rejected), 0 (not positive, rejected) and 4 (even, accepted), obtained
from the theorem. -/
theorem C4_run_validation_witness :
    UnsupervisedSampler.check_parameter_values (PyVal.int 3) =
      Except.error RunError.batchSizeNotEven ∧
    UnsupervisedSampler.check_parameter_values (PyVal.int 0) =
      Except.error RunError.batchSizeLessThanOne ∧
    UnsupervisedSampler.check_parameter_values (PyVal.int 4) =
      Except.ok () :=
  ⟨C4_run_validation.2.2.2.2.2.1 3 (by decide) (by decide),
   C4_run_validation.2.2.2.2.1 0 (by decide),
   C4_run_validation.2.2.2.2.2.2.1 4 (by decide) (by decide)⟩

/-- C6: construction fails, before any sampling occurs, with an error
identifying the offending parameter, exactly when the graph argument is
not a StellarGraph, the nodes argument is supplied but not iterable, the
walk length is below 2, or the walk count is below 1; construction with
length 2 and one walk per node succeeds.  The error is a function of the
arguments alone, so no sampling work is involved. -/
theorem C6_init_validation {S : Type} (rng : RNGOps S) :
    (∀ (nodes : PyNodesArg) (length number_of_walks : Int)
      (seed : Option Int),
      UnsupervisedSampler.init rng PyGraphArg.other nodes length
        number_of_walks seed = Except.error InitError.graphNotStellar) ∧
    (∀ (g : StellarGraph) (length number_of_walks : Int) (seed : Option Int),
      UnsupervisedSampler.init rng (PyGraphArg.stellar g)
        PyNodesArg.notIterable length number_of_walks seed =
        Except.error InitError.nodesNotIterable) ∧
    (∀ (g : StellarGraph) (nodes : PyNodesArg)
      (length number_of_walks : Int) (seed : Option Int),
      nodes ≠ PyNodesArg.notIterable → length < 2 →
      UnsupervisedSampler.init rng (PyGraphArg.stellar g) nodes length
        number_of_walks seed = Except.error InitError.lengthAtLeastTwo) ∧
    (∀ (g : StellarGraph) (nodes : PyNodesArg)
      (length number_of_walks : Int) (seed : Option Int),
      nodes ≠ PyNodesArg.notIterable → 2 ≤ length → number_of_walks < 1 →
      UnsupervisedSampler.init rng (PyGraphArg.stellar g) nodes length
        number_of_walks seed =
        Except.error InitError.numberOfWalksAtLeastOne) ∧
    (∀ (g : StellarGraph) (nodes : PyNodesArg) (seed : Option Int),
      nodes ≠ PyNodesArg.notIterable →
      ∃ s : UnsupervisedSampler S,
        UnsupervisedSampler.init rng (PyGraphArg.stellar g) nodes 2 1 seed =
          Except.ok s) ∧
    (∀ (G : PyGraphArg) (nodes : PyNodesArg)
      (length number_of_walks : Int) (seed : Option Int),
      (∃ e, UnsupervisedSampler.init rng G nodes length number_of_walks seed =
        Except.error e) ↔
      (G = PyGraphArg.other ∨ nodes = PyNodesArg.notIterable ∨
        length < 2 ∨ number_of_walks < 1)) := by
  have hmk : ∀ (g : StellarGraph) (ns : List Node)
      (length number_of_walks : Int) (seed : Option Int),
      2 ≤ length → 1 ≤ number_of_walks →
      UnsupervisedSampler.mkChecked rng g ns length number_of_walks seed =
        Except.ok (UnsupervisedSampler.mk g ns length number_of_walks
          (rng.seedInit seed)) := by
    intro g ns length number_of_walks seed h1 h2
    unfold UnsupervisedSampler.mkChecked
    rw [if_neg (by omega), if_neg (by omega)]
  refine ⟨fun nodes length number_of_walks seed => rfl,
    fun g length number_of_walks seed => rfl, ?_, ?_, ?_, ?_⟩
  · intro g nodes length number_of_walks seed hni hl
    cases nodes with
    | notIterable => exact absurd rfl hni
    | none =>
      simp only [UnsupervisedSampler.init, UnsupervisedSampler.mkChecked]
      rw [if_pos hl]
    | iterable ns =>
      simp only [UnsupervisedSampler.init, UnsupervisedSampler.mkChecked]
      rw [if_pos hl]
  · intro g nodes length number_of_walks seed hni hl hw
    cases nodes with
    | notIterable => exact absurd rfl hni
    | none =>
      simp only [UnsupervisedSampler.init, UnsupervisedSampler.mkChecked]
      rw [if_neg (by omega), if_pos hw]
    | iterable ns =>
      simp only [UnsupervisedSampler.init, UnsupervisedSampler.mkChecked]
      rw [if_neg (by omega), if_pos hw]
  · intro g nodes seed hni
    cases nodes with
    | notIterable => exact absurd rfl hni
    | none =>
      refine ⟨UnsupervisedSampler.mk g g.nodes 2 1 (rng.seedInit seed), ?_⟩
      simp only [UnsupervisedSampler.init]
      exact hmk g g.nodes 2 1 seed (by omega) (by omega)
    | iterable ns =>
      refine ⟨UnsupervisedSampler.mk g ns 2 1 (rng.seedInit seed), ?_⟩
      simp only [UnsupervisedSampler.init]
      exact hmk g ns 2 1 seed (by omega) (by omega)
  · intro G nodes length number_of_walks seed
    constructor
    · rintro ⟨e, he⟩
      by_contra hcon
      push_neg at hcon
      obtain ⟨hG, hns, hl, hw⟩ := hcon
      cases G with
      | other => exact hG rfl
      | stellar g =>
        cases nodes with
        | notIterable => exact hns rfl
        | none =>
          simp only [UnsupervisedSampler.init] at he
          rw [hmk g g.nodes length number_of_walks seed (by omega) (by omega)]
            at he
          exact Except.noConfusion he
        | iterable ns =>
          simp only [UnsupervisedSampler.init] at he
          rw [hmk g ns length number_of_walks seed (by omega) (by omega)]
            at he
          exact Except.noConfusion he
    · intro hbad
      cases G with
      | other => exact ⟨InitError.graphNotStellar, rfl⟩
      | stellar g =>
        cases nodes with
        | notIterable => exact ⟨InitError.nodesNotIterable, rfl⟩
        | none =>
          have hlw : length < 2 ∨ number_of_walks < 1 := by
            rcases hbad with h | h | h | h
            · exact absurd h (by intro hh; exact PyGraphArg.noConfusion hh)
            · exact absurd h (by intro hh; exact PyNodesArg.noConfusion hh)
            · exact Or.inl h
            · exact Or.inr h
          simp only [UnsupervisedSampler.init, UnsupervisedSampler.mkChecked]
          rcases lt_or_le length 2 with h2 | h2
          · exact ⟨InitError.lengthAtLeastTwo, by rw [if_pos h2]⟩
          · have h : number_of_walks < 1 := by omega
            refine ⟨InitError.numberOfWalksAtLeastOne, ?_⟩
            rw [if_neg (by omega), if_pos h]
        | iterable ns =>
          have hlw : length < 2 ∨ number_of_walks < 1 := by
            rcases hbad with h | h | h | h
            · exact absurd h (by intro hh; exact PyGraphArg.noConfusion hh)
            · exact absurd h (by intro hh; exact PyNodesArg.noConfusion hh)
            · exact Or.inl h
            · exact Or.inr h
          simp only [UnsupervisedSampler.init, UnsupervisedSampler.mkChecked]
          rcases lt_or_le length 2 with h2 | h2
          · exact ⟨InitError.lengthAtLeastTwo, by rw [if_pos h2]⟩
          · have h : number_of_walks < 1 := by omega
            refine ⟨InitError.numberOfWalksAtLeastOne, ?_⟩
            rw [if_neg (by omega), if_pos h]

/-- C1: for a sampler over a graph with a node of positive degree, a
root set of size `R = s.nodes.length`, a walker returning one walk of
exact length `L ≥ 2` per root, and an even integer batch size `b ≥ 2`,
`run` succeeds and its batches satisfy: the pair counts sum to
`2 * R * (L - 1)`, every batch except possibly the last holds exactly
`b` pairs, the number of batches is `⌈2 * R * (L - 1) / b⌉`, and the
last batch holds between 1 and `b` pairs. -/
theorem C1_run_batch_partition {S : Type} (rng : RNGOps S) (walker : Walker)
    (s : UnsupervisedSampler S) (b : Int) (L : Nat)
    (hb2 : 2 ≤ b) (heven : b % 2 = 0)
    (hwcount : (walker s.nodes s.length 1 0).length = s.nodes.length)
    (hwlen : ∀ w ∈ walker s.nodes s.length 1 0, w.length = L)
    (_hL2 : 2 ≤ L)
    (n0 : Node) (hn0 : n0 ∈ s.graph.nodes)
    (hd0 : 0 < s.graph.node_degrees n0) :
    ∃ t : RunTrace S,
      UnsupervisedSampler.runCore rng walker s (PyVal.int b) = Except.ok t ∧
      UnsupervisedSampler.run rng walker s (PyVal.int b) =
        Except.ok (t.batches, { s with random := t.random }) ∧
      ((t.batches.map (fun x => x.1.length)).sum =
        2 * s.nodes.length * (L - 1)) ∧
      (∀ x ∈ t.batches.dropLast, x.1.length = b.toNat) ∧
      (t.batches.length =
        (2 * s.nodes.length * (L - 1) + b.toNat - 1) / b.toNat) ∧
      (∀ h : t.batches ≠ [],
        1 ≤ ((t.batches.getLast h).1.length) ∧
        (t.batches.getLast h).1.length ≤ b.toNat) := by
  have hcheck := check_ok_of_even (b := b) (by omega) heven
  have hsum := sampling_distribution_sum_pos s.graph n0 hn0 hd0
  obtain ⟨neg, r1, hch, hneglen, hmem⟩ :=
    rng.choices_pos_total s.graph.nodes (sampling_distribution s.graph)
      (positive_pairs_of_walks (walker s.nodes s.length 1 0)).length
      s.random hsum (sampling_distribution_length s.graph)
  have hrun := runCore_ok rng walker s (PyVal.int b) hcheck neg r1 hch
  have hposlen : (positive_pairs_of_walks (walker s.nodes s.length 1 0)).length =
      s.nodes.length * (L - 1) := by
    rw [positive_pairs_of_walks_length_const _ L hwlen, hwcount]
  refine ⟨assembleTrace rng b.toNat (walker s.nodes s.length 1 0)
    (positive_pairs_of_walks (walker s.nodes s.length 1 0)) neg r1,
    hrun, ?_, ?_⟩
  · unfold UnsupervisedSampler.run
    rw [hrun]
    rfl
  have hbatches := (assembleTrace_batches rng b.toNat
    (walker s.nodes s.length 1 0)
    (positive_pairs_of_walks (walker s.nodes s.length 1 0)) neg r1).1
  have hslen : ((rng.shuffleP (preShuffle
      (positive_pairs_of_walks (walker s.nodes s.length 1 0)) neg) r1).1).length =
      2 * (s.nodes.length * (L - 1)) := by
    have hperm := rng.shuffle_perm (preShuffle
      (positive_pairs_of_walks (walker s.nodes s.length 1 0)) neg) r1
    rw [hperm.length_eq, preShuffle_length _ neg hneglen, hposlen]
  obtain ⟨hsum2, hcount, hdrop, hlast⟩ :=
    toBatches_main b.toNat (by omega)
      ((rng.shuffleP (preShuffle
        (positive_pairs_of_walks (walker s.nodes s.length 1 0)) neg) r1).1).length
      ((rng.shuffleP (preShuffle
        (positive_pairs_of_walks (walker s.nodes s.length 1 0)) neg) r1).1)
      (le_refl _)
  rw [hslen] at hsum2 hcount
  refine ⟨?_, ?_, ?_, ?_⟩
  · rw [hbatches, hsum2, ← Nat.mul_assoc]
  · intro x hx
    rw [hbatches] at hx
    exact hdrop x hx
  · rw [hbatches, hcount, ← Nat.mul_assoc]
  · rw [hbatches]
    exact hlast

/-- A concrete two-node graph with one edge (both endpoints of degree
one), used to instantiate the theorems at concrete inputs. -/
def pathGraph : StellarGraph := StellarGraph.mk [0, 1] (fun _ => 1)

/-- A concrete walker returning one walk of length two per root, used to
instantiate the theorems at concrete inputs. -/
def walkerW : Walker := fun ns _ _ _ => ns.map (fun x => [x, x])

/-- A concrete sampler object over the trivial random state. -/
def samplerW : UnsupervisedSampler Unit :=
  UnsupervisedSampler.mk pathGraph [0, 1] 2 1 ()

/-- C1 witness: the batch contract instantiated on the two-node path
graph with both nodes as roots, walk length 2 and batch size 2. -/
theorem C1_run_batch_partition_witness :
    ∃ t : RunTrace Unit,
      UnsupervisedSampler.runCore theRNG walkerW samplerW (PyVal.int 2) =
        Except.ok t ∧
      UnsupervisedSampler.run theRNG walkerW samplerW (PyVal.int 2) =
        Except.ok (t.batches, { samplerW with random := t.random }) ∧
      ((t.batches.map (fun x => x.1.length)).sum =
        2 * samplerW.nodes.length * (2 - 1)) ∧
      (∀ x ∈ t.batches.dropLast, x.1.length = (2 : Int).toNat) ∧
      (t.batches.length =
        (2 * samplerW.nodes.length * (2 - 1) + (2 : Int).toNat - 1) /
          (2 : Int).toNat) ∧
      (∀ h : t.batches ≠ [],
        1 ≤ ((t.batches.getLast h).1.length) ∧
        (t.batches.getLast h).1.length ≤ (2 : Int).toNat) :=
  C1_run_batch_partition theRNG walkerW samplerW 2 2 (by decide) (by decide)
    (by decide) (by decide) (by decide) 0 (by decide) (by decide)

/-- Inversion of a successful `runCore`: validation passed, the draw
succeeded, and the trace is the assembled one. -/
theorem runCore_ok_inv {S : Type} {rng : RNGOps S} {walker : Walker}
    {s : UnsupervisedSampler S} {bs : PyVal} {t : RunTrace S}
    (h : UnsupervisedSampler.runCore rng walker s bs = Except.ok t) :
    ∃ neg r1,
      UnsupervisedSampler.check_parameter_values bs = Except.ok () ∧
      rng.choices s.graph.nodes (sampling_distribution s.graph)
        (positive_pairs_of_walks (walker s.nodes s.length 1 0)).length
        s.random = Except.ok (neg, r1) ∧
      t = assembleTrace rng bs.intOf.toNat (walker s.nodes s.length 1 0)
        (positive_pairs_of_walks (walker s.nodes s.length 1 0)) neg r1 := by
  cases hc : UnsupervisedSampler.check_parameter_values bs with
  | error e =>
    rw [runCore_check_error rng walker s bs e hc] at h
    exact Except.noConfusion h
  | ok u =>
    cases u
    cases hch : rng.choices s.graph.nodes (sampling_distribution s.graph)
        (positive_pairs_of_walks (walker s.nodes s.length 1 0)).length
        s.random with
    | error msg =>
      rw [runCore_choices_error rng walker s bs hc msg hch] at h
      exact Except.noConfusion h
    | ok pr =>
      obtain ⟨neg, r1⟩ := pr
      rw [runCore_ok rng walker s bs hc neg r1 hch] at h
      exact ⟨neg, r1, rfl, rfl, (Except.ok.inj h).symm⟩

/-- C2: on a validated call, the orchestrator invokes the walk generator
at exactly the arguments (its root nodes, its configured length, one
walk per root, the constant seed 0): the call succeeds and its walks are
`walker s.nodes s.length 1 0`; the whole run depends on the walker only
through its value at those arguments; and any sampler sharing the same
graph, roots and length — with any `number_of_walks` and any random
state — obtains the same walks. -/
theorem C2_walker_called_once_fixed_seed {S : Type} (rng : RNGOps S)
    (walker : Walker) (s : UnsupervisedSampler S) (b : Int)
    (hb1 : 1 ≤ b) (heven : b % 2 = 0)
    (n0 : Node) (hn0 : n0 ∈ s.graph.nodes)
    (hd0 : 0 < s.graph.node_degrees n0) :
    (∃ t : RunTrace S,
      UnsupervisedSampler.runCore rng walker s (PyVal.int b) = Except.ok t ∧
      t.walks = walker s.nodes s.length 1 0) ∧
    (∀ walker2 : Walker,
      walker2 s.nodes s.length 1 0 = walker s.nodes s.length 1 0 →
      UnsupervisedSampler.runCore rng walker2 s (PyVal.int b) =
        UnsupervisedSampler.runCore rng walker s (PyVal.int b)) ∧
    (∀ (s2 : UnsupervisedSampler S) (t2 : RunTrace S),
      s2.graph = s.graph → s2.nodes = s.nodes → s2.length = s.length →
      UnsupervisedSampler.runCore rng walker s2 (PyVal.int b) =
        Except.ok t2 →
      t2.walks = walker s.nodes s.length 1 0) := by
  have hcheck := check_ok_of_even hb1 heven
  refine ⟨?_, ?_, ?_⟩
  · have hsum := sampling_distribution_sum_pos s.graph n0 hn0 hd0
    obtain ⟨neg, r1, hch, hneglen, hmem⟩ :=
      rng.choices_pos_total s.graph.nodes (sampling_distribution s.graph)
        (positive_pairs_of_walks (walker s.nodes s.length 1 0)).length
        s.random hsum (sampling_distribution_length s.graph)
    exact ⟨_, runCore_ok rng walker s (PyVal.int b) hcheck neg r1 hch, rfl⟩
  · intro walker2 hsame
    simp only [UnsupervisedSampler.runCore, hsame]
  · intro s2 t2 hg hn hl hrun
    obtain ⟨neg, r1, hc2, hch2, ht2⟩ := runCore_ok_inv hrun
    rw [ht2, hn, hl]
    rfl

/-- C2 witness: the fixed-seed one-walk-per-root invocation on the
two-node path graph with batch size 2. -/
theorem C2_walker_called_once_fixed_seed_witness :
    (∃ t : RunTrace Unit,
      UnsupervisedSampler.runCore theRNG walkerW samplerW (PyVal.int 2) =
        Except.ok t ∧
      t.walks = walkerW samplerW.nodes samplerW.length 1 0) ∧
    (∀ walker2 : Walker,
      walker2 samplerW.nodes samplerW.length 1 0 =
        walkerW samplerW.nodes samplerW.length 1 0 →
      UnsupervisedSampler.runCore theRNG walker2 samplerW (PyVal.int 2) =
        UnsupervisedSampler.runCore theRNG walkerW samplerW (PyVal.int 2)) ∧
    (∀ (s2 : UnsupervisedSampler Unit) (t2 : RunTrace Unit),
      s2.graph = samplerW.graph → s2.nodes = samplerW.nodes →
      s2.length = samplerW.length →
      UnsupervisedSampler.runCore theRNG walkerW s2 (PyVal.int 2) =
        Except.ok t2 →
      t2.walks = walkerW samplerW.nodes samplerW.length 1 0) :=
  C2_walker_called_once_fixed_seed theRNG walkerW samplerW 2 (by decide)
    (by decide) 0 (by decide) (by decide)

/-- Mapping the target projection over a zip: the negative-pair builder
of line 147-150 equals zipping the positive targets with the drawn
contexts. -/
theorem map_zip_fst {α β γ : Type} (pos : List (α × β)) (neg : List γ) :
    (pos.zip neg).map (fun pn => (pn.1.1, pn.2)) =
      (pos.map Prod.fst).zip neg := by
  induction pos generalizing neg with
  | nil => simp
  | cons p ps ih =>
    cases neg with
    | nil => simp
    | cons n ns => simp [ih]

/-- C3: a validated run draws exactly one negative sample per positive
pair: the draw is `random.choices` over all current graph nodes with the
weights `degree ** 0.75` recomputed from the graph on this call, asked
for exactly `P` samples with replacement; the negative pairs are the
positive targets zipped positionally with the drawn contexts (targets
copied, contexts drawn); every drawn context is a graph node; and the
draw depends on the positive pairs only through their number, never on
their true contexts (no de-duplication). -/
theorem C3_negative_sampling {S : Type} (rng : RNGOps S) (walker : Walker)
    (s : UnsupervisedSampler S) (b : Int)
    (hb1 : 1 ≤ b) (heven : b % 2 = 0)
    (n0 : Node) (hn0 : n0 ∈ s.graph.nodes)
    (hd0 : 0 < s.graph.node_degrees n0) :
    ∃ t : RunTrace S,
      UnsupervisedSampler.runCore rng walker s (PyVal.int b) = Except.ok t ∧
      t.negative_samples.length = t.positive_pairs.length ∧
      t.negative_pairs =
        (t.positive_pairs.map Prod.fst).zip t.negative_samples ∧
      t.negative_pairs.length = t.positive_pairs.length ∧
      (∃ r1, rng.choices s.graph.nodes (sampling_distribution s.graph)
        t.positive_pairs.length s.random =
          Except.ok (t.negative_samples, r1)) ∧
      (∀ x ∈ t.negative_samples, x ∈ s.graph.nodes) ∧
      ((sampling_distribution s.graph).length = s.graph.nodes.length ∧
        ∀ (i : Nat) (h1 : i < s.graph.nodes.length)
          (h2 : i < (sampling_distribution s.graph).length),
          (sampling_distribution s.graph).get ⟨i, h2⟩ =
            ((s.graph.node_degrees (s.graph.nodes.get ⟨i, h1⟩) : ℝ)) ^
              ((0.75 : ℝ))) ∧
      (∀ pos2 : List Pair, pos2.length = t.positive_pairs.length →
        rng.choices s.graph.nodes (sampling_distribution s.graph)
          pos2.length s.random =
        rng.choices s.graph.nodes (sampling_distribution s.graph)
          t.positive_pairs.length s.random) := by
  have hcheck := check_ok_of_even hb1 heven
  have hsum := sampling_distribution_sum_pos s.graph n0 hn0 hd0
  obtain ⟨neg, r1, hch, hneglen, hmem⟩ :=
    rng.choices_pos_total s.graph.nodes (sampling_distribution s.graph)
      (positive_pairs_of_walks (walker s.nodes s.length 1 0)).length
      s.random hsum (sampling_distribution_length s.graph)
  refine ⟨assembleTrace rng b.toNat (walker s.nodes s.length 1 0)
    (positive_pairs_of_walks (walker s.nodes s.length 1 0)) neg r1,
    runCore_ok rng walker s (PyVal.int b) hcheck neg r1 hch,
    hneglen, map_zip_fst _ _, ?_, ⟨r1, hch⟩, hmem, ?_, ?_⟩
  · show (((positive_pairs_of_walks (walker s.nodes s.length 1 0)).zip
        neg).map (fun pn => (pn.1.1, pn.2))).length =
      (positive_pairs_of_walks (walker s.nodes s.length 1 0)).length
    rw [List.length_map, List.length_zip, hneglen, Nat.min_self]
  · refine ⟨sampling_distribution_length s.graph, ?_⟩
    intro i h1 h2
    simp [sampling_distribution]
  · intro pos2 hlen2
    rw [hlen2]

/-- C3 witness: the negative-draw shape instantiated on the two-node
path graph with batch size 2. -/
theorem C3_negative_sampling_witness :
    ∃ t : RunTrace Unit,
      UnsupervisedSampler.runCore theRNG walkerW samplerW (PyVal.int 2) =
        Except.ok t ∧
      t.negative_samples.length = t.positive_pairs.length ∧
      t.negative_pairs =
        (t.positive_pairs.map Prod.fst).zip t.negative_samples := by
  obtain ⟨t, h1, h2, h3, -⟩ := C3_negative_sampling theRNG walkerW samplerW 2
    (by decide) (by decide) 0 (by decide) (by decide)
  exact ⟨t, h1, h2, h3⟩

/-- C6 witness: construction fails at length 1 and succeeds at length 2
with one walk per root, on the two-node path graph. -/
theorem C6_init_validation_witness :
    UnsupervisedSampler.init theRNG (PyGraphArg.stellar pathGraph)
      (PyNodesArg.iterable [0]) 1 1 Option.none =
      Except.error InitError.lengthAtLeastTwo ∧
    (∃ s : UnsupervisedSampler Unit,
      UnsupervisedSampler.init theRNG (PyGraphArg.stellar pathGraph)
        (PyNodesArg.iterable [0]) 2 1 Option.none = Except.ok s) :=
  ⟨(C6_init_validation theRNG).2.2.1 pathGraph (PyNodesArg.iterable [0]) 1 1
      Option.none (fun h => PyNodesArg.noConfusion h) (by decide),
   (C6_init_validation theRNG).2.2.2.2.1 pathGraph (PyNodesArg.iterable [0])
      Option.none (fun h => PyNodesArg.noConfusion h)⟩

/-- C7: when every graph node has degree zero, every negative-sampling
weight is zero, and a validated `run` call fails with an explicit error
at the negative-draw step instead of returning batches. -/
theorem C7_zero_weights_error {S : Type} (rng : RNGOps S) (walker : Walker)
    (s : UnsupervisedSampler S) (b : Int)
    (hb1 : 1 ≤ b) (heven : b % 2 = 0)
    (hdeg : ∀ n ∈ s.graph.nodes, s.graph.node_degrees n = 0) :
    ∃ msg, UnsupervisedSampler.run rng walker s (PyVal.int b) =
      Except.error (RunError.choicesError msg) := by
  have hcheck := check_ok_of_even hb1 heven
  have hzero := sampling_distribution_sum_zero s.graph hdeg
  obtain ⟨msg, hch⟩ := rng.choices_zero_total s.graph.nodes
    (sampling_distribution s.graph)
    (positive_pairs_of_walks (walker s.nodes s.length 1 0)).length
    s.random (le_of_eq hzero)
  refine ⟨msg, ?_⟩
  unfold UnsupervisedSampler.run
  rw [runCore_choices_error rng walker s (PyVal.int b) hcheck msg hch]
  rfl

/-- An edgeless one-node graph, used to instantiate the degenerate
distribution case. -/
def edgelessGraph : StellarGraph := StellarGraph.mk [0] (fun _ => 0)

/-- A sampler over the edgeless graph. -/
def samplerZ : UnsupervisedSampler Unit :=
  UnsupervisedSampler.mk edgelessGraph [0] 2 1 ()

/-- C7 witness: the degenerate-distribution error on the edgeless
graph with batch size 2. -/
theorem C7_zero_weights_error_witness :
    ∃ msg, UnsupervisedSampler.run theRNG walkerW samplerZ (PyVal.int 2) =
      Except.error (RunError.choicesError msg) :=
  C7_zero_weights_error theRNG walkerW samplerZ 2 (by decide) (by decide)
    (by decide)

/-- C9: a sampler whose root set is empty, over a graph with a node of
positive degree, returns the empty list of batches on a validated call
instead of raising. -/
theorem C9_empty_roots_empty_batches {S : Type} (rng : RNGOps S)
    (walker : Walker) (s : UnsupervisedSampler S) (b : Int)
    (hb1 : 1 ≤ b) (heven : b % 2 = 0)
    (_hroots : s.nodes = [])
    (hwalker : walker s.nodes s.length 1 0 = [])
    (n0 : Node) (hn0 : n0 ∈ s.graph.nodes)
    (hd0 : 0 < s.graph.node_degrees n0) :
    ∃ s2 : UnsupervisedSampler S,
      UnsupervisedSampler.run rng walker s (PyVal.int b) =
        Except.ok ([], s2) := by
  have hcheck := check_ok_of_even hb1 heven
  have hsum := sampling_distribution_sum_pos s.graph n0 hn0 hd0
  have hpos : positive_pairs_of_walks (walker s.nodes s.length 1 0) = [] := by
    rw [hwalker]
    rfl
  obtain ⟨neg, r1, hch, hneglen, hmem⟩ :=
    rng.choices_pos_total s.graph.nodes (sampling_distribution s.graph)
      (positive_pairs_of_walks (walker s.nodes s.length 1 0)).length
      s.random hsum (sampling_distribution_length s.graph)
  have hneg : neg = [] := by
    apply List.length_eq_zero.mp
    rw [hneglen, hpos]
    rfl
  subst hneg
  have hrun := runCore_ok rng walker s (PyVal.int b) hcheck [] r1 hch
  have hpre : preShuffle
      (positive_pairs_of_walks (walker s.nodes s.length 1 0)) [] = [] := by
    rw [hpos]
    rfl
  have h0 : (rng.shuffleP ([] : List LabeledPair) r1).1 = [] :=
    List.Perm.eq_nil (rng.shuffle_perm [] r1)
  have hbatches : (assembleTrace rng (PyVal.int b).intOf.toNat
      (walker s.nodes s.length 1 0)
      (positive_pairs_of_walks (walker s.nodes s.length 1 0)) [] r1).batches =
      [] := by
    rw [(assembleTrace_batches _ _ _ _ _ _).1, hpre, h0, toBatches_nil]
  refine ⟨{ s with random := (assembleTrace rng (PyVal.int b).intOf.toNat
    (walker s.nodes s.length 1 0)
    (positive_pairs_of_walks (walker s.nodes s.length 1 0)) [] r1).random },
    ?_⟩
  unfold UnsupervisedSampler.run
  rw [hrun]
  simp only [Except.map]
  rw [hbatches]

/-- A sampler with an empty root set over the two-node path graph. -/
def samplerE : UnsupervisedSampler Unit :=
  UnsupervisedSampler.mk pathGraph [] 2 1 ()

/-- C9 witness: the empty-root sampler over the path graph returns no
batches at batch size 2. -/
theorem C9_empty_roots_empty_batches_witness :
    ∃ s2 : UnsupervisedSampler Unit,
      UnsupervisedSampler.run theRNG walkerW samplerE (PyVal.int 2) =
        Except.ok ([], s2) :=
  C9_empty_roots_empty_batches theRNG walkerW samplerE 2 (by decide)
    (by decide) rfl rfl 0 (by decide) (by decide)

/-- C8: two samplers constructed from identical arguments (same graph,
same roots, same configuration, same seed) produce identical answer
sequences under lock-step sequences of `run` calls: the whole pipeline
is a deterministic function of the seed, the graph, the configuration
and the call history. -/
theorem C8_seed_determinism {S : Type} (rng : RNGOps S) (walker : Walker)
    (G : PyGraphArg) (nodes : PyNodesArg) (length number_of_walks : Int)
    (seed : Option Int) (s1 s2 : UnsupervisedSampler S)
    (h1 : UnsupervisedSampler.init rng G nodes length number_of_walks seed =
      Except.ok s1)
    (h2 : UnsupervisedSampler.init rng G nodes length number_of_walks seed =
      Except.ok s2)
    (calls : List PyVal) :
    UnsupervisedSampler.runCalls rng walker s1 calls =
      UnsupervisedSampler.runCalls rng walker s2 calls := by
  have heq : s1 = s2 := Except.ok.inj (h1.symm.trans h2)
  rw [heq]

/-- C8 witness: the determinism statement instantiated on the path graph
with seed 5 and two lock-step calls of batch size 2. -/
theorem C8_seed_determinism_witness :
    UnsupervisedSampler.runCalls theRNG walkerW
      (UnsupervisedSampler.mk pathGraph [0, 1] 2 1 ())
      [PyVal.int 2, PyVal.int 2] =
    UnsupervisedSampler.runCalls theRNG walkerW
      (UnsupervisedSampler.mk pathGraph [0, 1] 2 1 ())
      [PyVal.int 2, PyVal.int 2] :=
  C8_seed_determinism theRNG walkerW (PyGraphArg.stellar pathGraph)
    (PyNodesArg.iterable [0, 1]) 2 1 (Option.some 5) _ _ rfl rfl
    [PyVal.int 2, PyVal.int 2]
